import Mathlib

/-!
# ChillBuddy frontend — verification of the aggregation / reward subsystem

Shallow embedding of the progress-aggregation and reward-notification code of
the ChillBuddy web app (mood tracker, journal, exercises, progress dashboard,
chat error mapping), with theorems checking the natural-language specification
against it.

Conventions of the embedding:
* JS timestamps are identified with their calendar day, an `Int`
  (`toDateString`, or midnight normalisation followed by division by the
  number of milliseconds per day, both collapse a timestamp to its day).
* JS numbers are modelled as `ℚ` where fractional values matter and as `Int`
  where the code only ever holds integers.  Float rounding is not modelled.
* `localStorage` reads are `Option String`; the host `JSON.parse` is an
  explicit parameter of type `String → Except String α`, so that a routine
  which catches a parse failure and one which lets it escape get different
  result values.
-/

set_option autoImplicit false

namespace ChillBuddy

/-! ## Streaks

`MoodTracker.calculateStreak` (mood-tracker.js) walks the history (newest
first), keeping a `currentDate` that starts at today and is decremented by one
day after every entry that matches it; the walk stops at the first entry that
does not match.

`JournalSystem.getStreak` (journal.js) walks the entries, comparing the
whole-day difference `today - entryDate` against the running streak counter.
-/

/-- The loop of `MoodTracker.calculateStreak`: `streak` is the accumulator and
the expected date for the next entry is `today - streak`. -/
def streakGo (today : Int) : List Int → Nat → Nat
  | [], streak => streak
  | d :: rest, streak =>
      if d = today - (streak : Int) then streakGo today rest (streak + 1) else streak

/-- `MoodTracker.calculateStreak`: 0 on an empty history, otherwise the walk
`streakGo` starting from streak 0. -/
def calculateStreak (history : List Int) (today : Int) : Nat :=
  if history.isEmpty then 0 else streakGo today history 0

/-- The loop of `JournalSystem.getStreak`: entry `i` must satisfy
`today - entryDay = streak`. -/
def getStreakGo (today : Int) : List Int → Nat → Nat
  | [], streak => streak
  | d :: rest, streak =>
      if today - d = (streak : Int) then getStreakGo today rest (streak + 1) else streak

/-- `JournalSystem.getStreak`: 0 on an empty list, otherwise the walk
`getStreakGo` starting from streak 0. -/
def getStreak (entries : List Int) (today : Int) : Nat :=
  if entries.isEmpty then 0 else getStreakGo today entries 0

/-- Non-accumulator form of the streak walk: the length of the longest prefix
of the history whose `i`-th entry is dated exactly `i` days before `today`. -/
def prefixStreak (today : Int) : List Int → Nat
  | [] => 0
  | d :: rest => if d = today then prefixStreak (today - 1) rest + 1 else 0

/-- The specification's streak semantics, fuelled by the history length:
walk backward from today while each day has at least one entry anywhere in the
history, stopping at the first day with none. -/
def specStreakAux (days : List Int) : Nat → Int → Nat
  | 0, _ => 0
  | fuel + 1, d => if d ∈ days then specStreakAux days fuel (d - 1) + 1 else 0

/-- Modelled from the spec: the claimed streak — count of consecutive calendar
days, starting today and walking backward, each having at least one entry in
the history.  (The history has at most `length` distinct days, so that much
fuel suffices.) -/
def specStreak (history : List Int) (today : Int) : Nat :=
  specStreakAux history history.length today

/-! ## Activity stores

`MoodTracker.logMood` (mood-tracker.js) unshifts the new entry and keeps the
first 30; `completeExercise` (exercises.js) unshifts and keeps the first 50;
`JournalSystem.saveEntry` (journal.js) either unshifts a new entry or, when
editing, replaces the entry whose id matches `currentEntry.id` in place.
-/

/-- A mood history entry: `id`, calendar day of `timestamp`, and
`mood.value`. -/
structure MoodEntry where
  id : Int
  day : Int
  mood : ℚ
  deriving DecidableEq

/-- A journal entry: `id`, calendar day of `date`, `content`, and the
possibly-absent `wordCount` field (`entry.wordCount || 0` supplies 0). -/
structure JournalEntry where
  id : Int
  day : Int
  content : String
  wordCount : Option Int
  deriving DecidableEq

/-- An exercise completion record (id, exercise id, calendar day). -/
structure ExerciseCompletion where
  id : Int
  exerciseId : String
  day : Int
  deriving DecidableEq

/-- `MoodTracker.logMood`, restricted to its history mutation: unshift the
new entry, then keep only the last 30 entries. -/
def logMood (history : List MoodEntry) (entry : MoodEntry) : List MoodEntry :=
  let h := entry :: history
  if 30 < h.length then h.take 30 else h

/-- `completeExercise` (exercises.js), restricted to its history mutation:
unshift the completion, then keep only the last 50. -/
def completeExercise (history : List ExerciseCompletion)
    (completion : ExerciseCompletion) : List ExerciseCompletion :=
  let h := completion :: history
  if 50 < h.length then h.take 50 else h

/-- `JournalSystem.saveEntry`, restricted to its `entries` mutation: when
editing, `findIndex` on the id and replace in place; otherwise unshift.
There is no retention cap on journal entries. -/
def saveEntry (entries : List JournalEntry) (editing : Bool)
    (currentEntry : JournalEntry) : List JournalEntry :=
  if editing then
    match entries.findIdx? (fun e => e.id == currentEntry.id) with
    | some i => entries.set i currentEntry
    | none => entries
  else currentEntry :: entries

/-! ## Averages

`MoodTracker.calculateAverageMood` and `JournalSystem.getAverageWordsPerEntry`.
The journal version applies `Math.round` to the mean.
-/

/-- JS `Math.round` on a finite value: floor of `q + 1/2` (halves round toward
positive infinity). -/
def jsRound (q : ℚ) : Int := ⌊q + 1 / 2⌋

/-- `MoodTracker.calculateAverageMood`: 0 on an empty history, otherwise the
sum of `entry.mood.value` divided by the length. -/
def calculateAverageMood (history : List MoodEntry) : ℚ :=
  if history.length = 0 then 0
  else (history.map (fun e => e.mood)).sum / (history.length : ℚ)

/-- `JournalSystem.getAverageWordsPerEntry`: 0 on an empty list, otherwise
`Math.round(totalWords / entries.length)` with `entry.wordCount || 0`. -/
def getAverageWordsPerEntry (entries : List JournalEntry) : Int :=
  if entries.length = 0 then 0
  else jsRound ((entries.map (fun e => ((e.wordCount.getD 0 : Int) : ℚ))).sum
    / (entries.length : ℚ))

/-! ## Stored-data loading (JSON parse failure behaviour)

The host `JSON.parse` (composed with the shape each routine expects) is an
explicit parameter `parse : String → Except String α`; a thrown `SyntaxError`
is an `Except.error`.  A routine that wraps the parse in try/catch can never
return an error value; one that does not propagates it.
-/

/-- `JournalSystem.loadEntries` (journal.js): `saved ? JSON.parse(saved) : []`
inside try/catch; the catch logs and returns `[]`. -/
def loadEntries {α : Type} (parse : String → Except String (List α))
    (stored : Option String) : Except String (List α) :=
  match (match stored with
         | some s => parse s
         | none => Except.ok []) with
  | Except.ok v => Except.ok v
  | Except.error _ => Except.ok []

/-- The `favoriteResources` read in the `ResourcesManager` constructor
(journal.js): `JSON.parse(localStorage.getItem("favoriteResources") || "[]")`
with no try/catch, so a parse failure escapes the constructor.  A missing (or
empty, hence falsy) stored string falls back to the literal `"[]"`. -/
def resourcesManagerFavorites {α : Type} (parse : String → Except String (List α))
    (stored : Option String) : Except String (List α) :=
  match stored with
  | some s => parse s
  | none => parse "[]"

/-- The `moodHistory` read in `RewardPreview.loadUserProgress`:
`JSON.parse(localStorage.getItem("moodHistory") || "[]")` with no try/catch
(the `journalEntries` and `exerciseProgress` reads have the same shape). -/
def loadUserProgressMoodHistory {α : Type} (parse : String → Except String (List α))
    (stored : Option String) : Except String (List α) :=
  match stored with
  | some s => parse s
  | none => parse "[]"

/-- A concrete stand-in for the host JSON parser that accepts only the literal
empty array, used to exhibit parse failures. -/
def strictEmptyParse : String → Except String (List Nat) :=
  fun s => if s = "[]" then Except.ok [] else Except.error "SyntaxError"

/-! ## Chat error mapping (`getChillBuddyResponse`, chat.js) -/

/-- The parsed response body: `data.message` (`none` when absent or falsy) and
`data.crisis_detected`. -/
structure ChatData where
  message : Option String
  crisisDetected : Bool
  deriving DecidableEq

/-- Outcome of the `fetch`: a resolved response with an HTTP status and parsed
body, or a rejection (network failure) landing in the `catch`. -/
inductive FetchOutcome where
  | response (status : Nat) (data : ChatData)
  | failure
  deriving DecidableEq

def authMessage : String :=
  "I need you to be authenticated to chat. Please refresh the page and try again."

def rateLimitMessage : String :=
  "You\x27re sending messages too quickly. Please take a moment and try again."

def serverErrorMessage : String :=
  "I\x27m experiencing some technical difficulties. Please try again in a moment."

def genericErrorMessage : String :=
  "I\x27m sorry, but I couldn\x27t process your message right now. Please try again."

def connectionErrorMessage : String :=
  "I\x27m having a little trouble connecting right now. Please try again in a moment."

def crisisFallbackMessage : String :=
  "I\x27m here to support you. If you\x27re in crisis, please reach out to a mental health professional or crisis hotline."

def invalidStructureMessage : String :=
  "I\x27m having a little trouble thinking right now. Could you try rephrasing your message?"

/-- `getChillBuddyResponse` (chat.js): `response.ok` is status 200–299; on a
non-ok status the function returns a canned string chosen by 401 / 429 / ≥500
/ other; the `catch` returns the connection message.  On ok responses it
returns `data.message` when present, else the crisis fallback when
`data.crisis_detected`, else the invalid-structure message. -/
def getChillBuddyResponse : FetchOutcome → String
  | FetchOutcome.failure => connectionErrorMessage
  | FetchOutcome.response status data =>
      if ¬ (200 ≤ status ∧ status ≤ 299) then
        if status = 401 then authMessage
        else if status = 429 then rateLimitMessage
        else if 500 ≤ status then serverErrorMessage
        else genericErrorMessage
      else
        match data.message with
        | some m => m
        | none =>
            if data.crisisDetected then crisisFallbackMessage
            else invalidStructureMessage

/-! ## Progress dashboard (progress-dashboard.js)

State: the `progressData` array plus the log of badge ids passed to
`achievementNotifications.showNotification`.  `showNotification`
(achievement-notifications.js) unconditionally creates and shows a popup —
it keeps no record of which badge ids were already shown — so the log grows
by one entry per call. -/

/-- A milestone of a progress item. -/
structure Milestone where
  value : Int
  label : String
  completed : Bool
  deriving DecidableEq

/-- A `recentActivity` record of a progress item. -/
structure ActivityRecord where
  date : Int
  count : Int
  activityType : String
  deriving DecidableEq

/-- One element of `progressData`. -/
structure ProgressItem where
  badgeId : String
  badgeName : String
  category : String
  current : Int
  target : Int
  unit : String
  milestones : List Milestone
  recentActivity : List ActivityRecord
  deriving DecidableEq

/-- Dashboard state: `progressData` plus the emission log of badge-earned
notifications. -/
structure DashboardState where
  progressData : List ProgressItem
  notifications : List String
  deriving DecidableEq

/-- In-place mutation of the first array element satisfying a predicate
(`find` returns a reference into the array; assigning through it rewrites
that element). -/
def modifyFirst {α : Type} (p : α → Bool) (f : α → α) : List α → List α
  | [] => []
  | x :: xs => if p x then f x :: xs else x :: modifyFirst p f xs

/-- `ProgressTrackingDashboard.updateProgress(badgeId, newProgress)`: find the
item with that badge id; if present set `item.current = Math.min(newProgress,
item.target)` and, when the new current has reached the target, call
`showNotification` for the badge; if absent do nothing. -/
def updateProgress (s : DashboardState) (badgeId : String) (newProgress : Int) :
    DashboardState :=
  match s.progressData.find? (fun item => item.badgeId == badgeId) with
  | none => s
  | some item =>
      let newCurrent := min newProgress item.target
      { progressData :=
          modifyFirst (fun i => i.badgeId == badgeId)
            (fun i => { i with current := newCurrent }) s.progressData,
        notifications :=
          if item.target ≤ newCurrent then s.notifications ++ [badgeId]
          else s.notifications }

/-- `ProgressTrackingDashboard.updateProgressFromModal`: read the input field
(`none` when the element is missing), parse it and delegate to
`updateProgress`. -/
def updateProgressFromModal (s : DashboardState) (badgeId : String)
    (inputValue : Option Int) : DashboardState :=
  match inputValue with
  | some n => updateProgress s badgeId n
  | none => s

/-- The `recentActivity` bump inside `simulateActivity`: increment the count
of the record dated today, or unshift a new record; then `slice(0, 7)`. -/
def addRecentActivity (today : Int) (activityType : String) (amount : Int)
    (ra : List ActivityRecord) : List ActivityRecord :=
  let updated : List ActivityRecord :=
    match ra.find? (fun a => a.date == today) with
    | some _ =>
        modifyFirst (fun a => a.date == today)
          (fun a => { a with count := a.count + amount }) ra
    | none => { date := today, count := amount, activityType := activityType } :: ra
  updated.take 7

/-- `ProgressTrackingDashboard.simulateActivity(badgeId, activityType,
amount)`: find the item; if present call
`updateProgress(badgeId, Math.min(item.current + amount, item.target))` and
then bump the item's `recentActivity` for today. -/
def simulateActivity (s : DashboardState) (badgeId activityType : String)
    (today amount : Int) : DashboardState :=
  match s.progressData.find? (fun item => item.badgeId == badgeId) with
  | none => s
  | some item =>
      let s2 := updateProgress s badgeId (min (item.current + amount) item.target)
      let bump : ProgressItem → ProgressItem := fun i =>
        { i with recentActivity :=
            addRecentActivity today activityType amount i.recentActivity }
      let pd := modifyFirst (fun i => i.badgeId == badgeId) bump s2.progressData
      { s2 with progressData := pd }

/-- `ProgressTrackingDashboard.resetProgress` (confirmation accepted): zero
every item's `current`, clear `recentActivity`, un-complete every milestone.
(The `userStats` reset is not part of the modelled state.) -/
def resetProgress (s : DashboardState) : DashboardState :=
  { progressData := s.progressData.map (fun item =>
      { item with current := 0, recentActivity := [],
                  milestones := item.milestones.map
                    (fun m => { m with completed := false }) }),
    notifications := s.notifications }

/-- `ProgressTrackingDashboard.renderProgressItem`:
`progressPercentage = Math.min((item.current / item.target) * 100, 100)`. -/
def progressPercentage (item : ProgressItem) : ℚ :=
  min ((item.current : ℚ) / (item.target : ℚ) * 100) 100

/-- The badge-progress fraction of the spec is the rendered percentage divided
by 100. -/
def badgeFraction (item : ProgressItem) : ℚ :=
  progressPercentage item / 100

/-- The `progressRatio = current / total` computed in
`RewardPreview.updateBadgeProgress` for the `current = Math.min(count,
target)` calls made by `RewardPreview.loadUserProgress`. -/
def rewardRatio (count target : Int) : ℚ :=
  ((min count target : Int) : ℚ) / (target : ℚ)

/-- A concrete in-progress dashboard item (badge "a", 0 of 2). -/
def dashItem : ProgressItem :=
  { badgeId := "a", badgeName := "Badge A", category := "learning",
    current := 0, target := 2, unit := "entries",
    milestones := [], recentActivity := [] }

/-- A dashboard holding just `dashItem`, with an empty notification log. -/
def dashExample : DashboardState :=
  { progressData := [dashItem], notifications := [] }

/-- A concrete item whose badge is already earned (5 of 5). -/
def earnedItem : ProgressItem :=
  { badgeId := "a", badgeName := "Badge A", category := "learning",
    current := 5, target := 5, unit := "entries",
    milestones := [], recentActivity := [] }

/-- A dashboard holding just `earnedItem`. -/
def earnedState : DashboardState :=
  { progressData := [earnedItem], notifications := [] }

/-! ## Aggregation pass (for the idempotence claim)

One aggregation pass reads the stores and produces the derived metrics; the
source routines (`reduce`, the streak loops, `map`) never write to the stores,
which the explicit state-passing form makes visible: the stores come back
unchanged. -/

/-- The derived metrics of one aggregation pass. -/
structure AggregateOutput where
  averageMood : ℚ
  moodStreak : Nat
  journalStreak : Nat
  averageWords : Int
  badgePercentages : List ℚ
  deriving DecidableEq

/-- One aggregation pass over the three stores at a fixed current date,
returning the metrics together with the (unchanged) stores. -/
def aggregate (moodHistory : List MoodEntry) (entries : List JournalEntry)
    (progressData : List ProgressItem) (today : Int) :
    AggregateOutput × List MoodEntry × List JournalEntry × List ProgressItem :=
  (⟨calculateAverageMood moodHistory,
    calculateStreak (moodHistory.map (fun e => e.day)) today,
    getStreak (entries.map (fun e => e.day)) today,
    getAverageWordsPerEntry entries,
    progressData.map progressPercentage⟩,
   moodHistory, entries, progressData)

/-- Journal entry with one word, for concrete instances. -/
def journalEntryOne : JournalEntry := ⟨1, 0, "hello", some 1⟩

/-- Journal entry with two words, for concrete instances. -/
def journalEntryTwo : JournalEntry := ⟨2, 0, "two words", some 2⟩

/-- The stored journal entry before an edit. -/
def journalEntryOld : JournalEntry := ⟨1, 0, "old text", some 2⟩

/-- The same entry (same id) as rewritten by an edit. -/
def journalEntryEdited : JournalEntry := ⟨1, 0, "rewritten text entirely", some 3⟩

theorem streakGo_eq_prefixStreak (t : Int) (h : List Int) :
    ∀ k : Nat, streakGo t h k = k + prefixStreak (t - (k : Int)) h := by
  induction h with
  | nil => intro k; simp [streakGo, prefixStreak]
  | cons d rest ih =>
      intro k
      by_cases hd : d = t - (k : Int)
      · simp only [streakGo, prefixStreak, if_pos hd, ih (k + 1), Nat.cast_add,
          Nat.cast_one, sub_add_eq_sub_sub]
        omega
      · simp only [streakGo, prefixStreak, if_neg hd]
        omega

theorem calculateStreak_eq_prefixStreak (h : List Int) (t : Int) :
    calculateStreak h t = prefixStreak t h := by
  cases h with
  | nil => simp [calculateStreak, prefixStreak]
  | cons d rest =>
      simp only [calculateStreak, List.isEmpty_cons, if_neg Bool.false_ne_true]
      have := streakGo_eq_prefixStreak t (d :: rest) 0
      simpa using this

theorem getStreakGo_eq_streakGo (t : Int) (h : List Int) :
    ∀ k : Nat, getStreakGo t h k = streakGo t h k := by
  induction h with
  | nil => intro k; rfl
  | cons d rest ih =>
      intro k
      simp only [getStreakGo, streakGo]
      have hiff : (t - d = (k : Int)) ↔ (d = t - (k : Int)) := by omega
      by_cases hc : d = t - (k : Int)
      · rw [if_pos (hiff.mpr hc), if_pos hc, ih]
      · rw [if_neg (fun hh => hc (hiff.mp hh)), if_neg hc]

theorem getStreak_eq_calculateStreak (h : List Int) (t : Int) :
    getStreak h t = calculateStreak h t := by
  cases h with
  | nil => rfl
  | cons d rest =>
      simp only [getStreak, calculateStreak, List.isEmpty_cons]
      exact getStreakGo_eq_streakGo t (d :: rest) 0

theorem specStreakAux_cons_of_lt (d : Int) (rest : List Int) :
    ∀ fuel : Nat, ∀ e : Int, e < d →
      specStreakAux (d :: rest) fuel e = specStreakAux rest fuel e := by
  intro fuel
  induction fuel with
  | zero => intro e _; rfl
  | succ n ih =>
      intro e he
      have hmem : (e ∈ d :: rest) ↔ (e ∈ rest) := by
        constructor
        · intro hm
          rcases List.mem_cons.mp hm with h1 | h2
          · exact absurd h1 (by omega)
          · exact h2
        · intro hm; exact List.mem_cons_of_mem d hm
      by_cases hm : e ∈ rest
      · simp only [specStreakAux, if_pos (hmem.mpr hm), if_pos hm]
        rw [ih (e - 1) (by omega)]
      · simp only [specStreakAux, if_neg (fun hh => hm (hmem.mp hh)), if_neg hm]

theorem prefixStreak_eq_specStreak (h : List Int) :
    ∀ t : Int, h.Pairwise (· > ·) → (∀ x ∈ h, x ≤ t) →
      prefixStreak t h = specStreak h t := by
  induction h with
  | nil => intro t _ _; rfl
  | cons d rest ih =>
      intro t hp hle
      have hdrest : ∀ x ∈ rest, x < d := (List.pairwise_cons.mp hp).1
      have hprest : rest.Pairwise (· > ·) := (List.pairwise_cons.mp hp).2
      by_cases hdt : d = t
      · subst hdt
        have hnotmem : (d : Int) - 1 < d := by omega
        calc prefixStreak d (d :: rest)
            = prefixStreak (d - 1) rest + 1 := by simp [prefixStreak]
          _ = specStreak rest (d - 1) + 1 := by
              rw [ih (d - 1) hprest (fun x hx => by have := hdrest x hx; omega)]
          _ = specStreak (d :: rest) d := by
              simp only [specStreak, List.length_cons, specStreakAux,
                if_pos (List.mem_cons_self d rest)]
              rw [specStreakAux_cons_of_lt d rest rest.length (d - 1) hnotmem]
      · have htnot : t ∉ (d :: rest) := by
          intro hm
          rcases List.mem_cons.mp hm with h1 | h2
          · exact hdt h1.symm
          · have h3 := hdrest t h2
            have h4 := hle d (List.mem_cons_self d rest)
            omega
        have h1 : prefixStreak t (d :: rest) = 0 := by
          simp [prefixStreak, fun hh : d = t => hdt hh]
        have h2 : specStreak (d :: rest) t = 0 := by
          simp only [specStreak, List.length_cons, specStreakAux, if_neg htnot]
        rw [h1, h2]

/-- C1 counterexample: a history ordered newest first with two entries dated
today and one dated yesterday.  The spec's day-walking semantics gives a
streak of 2 (today and yesterday both have an entry), but both
`MoodTracker.calculateStreak` and `JournalSystem.getStreak` stop at the second
entry for today (it does not match the already-decremented expected date) and
return 1. -/
theorem c1_streak_counterexample :
    calculateStreak [10, 10, 9] 10 = 1 ∧ getStreak [10, 10, 9] 10 = 1 ∧
    specStreak [10, 10, 9] 10 = 2 := by
  refine ⟨rfl, rfl, ?_⟩
  decide

/-- C1 (amended): both streak functions agree, and they return the length of
the longest prefix of the history whose `i`-th entry is dated exactly `i` days
before today; 0 when no entry is dated today.  The spec's consecutive-day
semantics is recovered exactly when each calendar day carries at most one
entry and no entry is dated after today (newest-first with strictly
decreasing days); a repeated day ends the walk after that day is counted
once. -/
theorem c1_streak_amended (h : List Int) (t : Int)
    (hsorted : h.Pairwise (· > ·)) (hle : ∀ x ∈ h, x ≤ t) :
    getStreak h t = calculateStreak h t ∧
    calculateStreak h t = prefixStreak t h ∧
    calculateStreak h t = specStreak h t ∧
    (t ∉ h → calculateStreak h t = 0) := by
  refine ⟨getStreak_eq_calculateStreak h t, calculateStreak_eq_prefixStreak h t, ?_, ?_⟩
  · rw [calculateStreak_eq_prefixStreak h t]
    exact prefixStreak_eq_specStreak h t hsorted hle
  · intro hnot
    rw [calculateStreak_eq_prefixStreak h t]
    cases h with
    | nil => rfl
    | cons d rest =>
        have hd : d ≠ t := fun hh => hnot (hh ▸ List.mem_cons_self d rest)
        simp [prefixStreak, hd]

/-- Witness for `c1_streak_amended` at history `[10, 9]`, today `10`. -/
theorem c1_streak_amended_witness :
    getStreak [10, 9] 10 = calculateStreak [10, 9] 10 ∧
    calculateStreak [10, 9] 10 = prefixStreak 10 [10, 9] ∧
    calculateStreak [10, 9] 10 = specStreak [10, 9] 10 ∧
    ((10 : Int) ∉ [10, 9] → calculateStreak [10, 9] 10 = 0) :=
  c1_streak_amended [10, 9] 10 (by decide) (by decide)

/-- C4 counterexample: a parser that rejects the stored string "x".
`JournalSystem.loadEntries` swallows the failure and yields the empty list,
but the `favoriteResources` read in the `ResourcesManager` constructor and
the `moodHistory` read in `RewardPreview.loadUserProgress` have no try/catch,
so the SyntaxError propagates to their callers. -/
theorem c4_parse_counterexample :
    loadEntries strictEmptyParse (some "x") = Except.ok [] ∧
    resourcesManagerFavorites strictEmptyParse (some "x") = Except.error "SyntaxError" ∧
    loadUserProgressMoodHistory strictEmptyParse (some "x") = Except.error "SyntaxError" := by
  refine ⟨rfl, rfl, rfl⟩

/-- C4 (amended): `JournalSystem.loadEntries` always returns a value — the
empty list when the stored string fails to parse — but the unguarded
`JSON.parse` calls in the `ResourcesManager` constructor and in
`RewardPreview.loadUserProgress` propagate a parse failure unchanged to their
callers. -/
theorem c4_parse_amended {α : Type} (parse : String → Except String (List α))
    (stored : Option String) (s e : String)
    (hfail : parse s = Except.error e) :
    (∃ v, loadEntries parse stored = Except.ok v) ∧
    loadEntries parse (some s) = Except.ok [] ∧
    resourcesManagerFavorites parse (some s) = Except.error e ∧
    loadUserProgressMoodHistory parse (some s) = Except.error e := by
  refine ⟨?_, ?_, ?_, ?_⟩
  · cases stored with
    | none => exact ⟨[], rfl⟩
    | some t =>
        cases htp : parse t with
        | ok v => exact ⟨v, by simp [loadEntries, htp]⟩
        | error ee => exact ⟨[], by simp [loadEntries, htp]⟩
  · simp [loadEntries, hfail]
  · simp [resourcesManagerFavorites, hfail]
  · simp [loadUserProgressMoodHistory, hfail]

/-- Witness for `c4_parse_amended` with the concrete parser and stored
string "x". -/
theorem c4_parse_amended_witness :
    (∃ v, loadEntries strictEmptyParse none = Except.ok v) ∧
    loadEntries strictEmptyParse (some "x") = Except.ok [] ∧
    resourcesManagerFavorites strictEmptyParse (some "x") = Except.error "SyntaxError" ∧
    loadUserProgressMoodHistory strictEmptyParse (some "x") = Except.error "SyntaxError" :=
  c4_parse_amended strictEmptyParse none "x" "SyntaxError" rfl

/-- C5 counterexample: saving while editing replaces the stored entry whose id
matches in place — the journal store is not append-only and its entries are
not immutable. -/
theorem c5_store_counterexample :
    saveEntry [journalEntryOld] true journalEntryEdited = [journalEntryEdited] ∧
    journalEntryOld ≠ journalEntryEdited ∧
    journalEntryOld.id = journalEntryEdited.id := by
  refine ⟨rfl, by decide, rfl⟩

/-- C5 (amended): the mood and exercise stores are append-only with
oldest-eviction caps of 30 and 50 (the new entry is unshifted and the
retained list is the 30- resp. 50-entry prefix, so after every mutation the
cap holds), and a non-editing journal save only unshifts; but an editing
journal save replaces the matching stored entry in place (and the journal
store has no cap). -/
theorem c5_store_amended (mh : List MoodEntry) (me : MoodEntry)
    (eh : List ExerciseCompletion) (ec : ExerciseCompletion)
    (je : List JournalEntry) (cur : JournalEntry) :
    logMood mh me = (me :: mh).take 30 ∧
    (logMood mh me).length ≤ 30 ∧
    (mh.length < 30 → logMood mh me = me :: mh) ∧
    completeExercise eh ec = (ec :: eh).take 50 ∧
    (completeExercise eh ec).length ≤ 50 ∧
    (eh.length < 50 → completeExercise eh ec = ec :: eh) ∧
    saveEntry je false cur = cur :: je := by
  have h1 : logMood mh me = (me :: mh).take 30 := by
    by_cases hl : 30 < (me :: mh).length
    · simp [logMood, hl]
    · rw [logMood, if_neg hl]
      exact (List.take_of_length_le (by omega)).symm
  have h2 : completeExercise eh ec = (ec :: eh).take 50 := by
    by_cases hl : 50 < (ec :: eh).length
    · simp [completeExercise, hl]
    · rw [completeExercise, if_neg hl]
      exact (List.take_of_length_le (by omega)).symm
  refine ⟨h1, ?_, ?_, h2, ?_, ?_, rfl⟩
  · rw [h1, List.length_take]
    exact min_le_left _ _
  · intro hlt
    rw [logMood, if_neg (by simp only [List.length_cons]; omega)]
  · rw [h2, List.length_take]
    exact min_le_left _ _
  · intro hlt
    rw [completeExercise, if_neg (by simp only [List.length_cons]; omega)]

/-- Witness for `c5_store_amended` on singleton stores. -/
theorem c5_store_amended_witness :
    logMood [] ⟨1, 0, 3⟩ = ([(⟨1, 0, 3⟩ : MoodEntry)]).take 30 ∧
    (logMood [] ⟨1, 0, 3⟩).length ≤ 30 ∧
    (([] : List MoodEntry).length < 30 → logMood [] ⟨1, 0, 3⟩ = [⟨1, 0, 3⟩]) ∧
    completeExercise [] ⟨1, "box-breathing", 0⟩
      = ([(⟨1, "box-breathing", 0⟩ : ExerciseCompletion)]).take 50 ∧
    (completeExercise [] ⟨1, "box-breathing", 0⟩).length ≤ 50 ∧
    (([] : List ExerciseCompletion).length < 50 →
      completeExercise [] ⟨1, "box-breathing", 0⟩ = [⟨1, "box-breathing", 0⟩]) ∧
    saveEntry [] false journalEntryOne = [journalEntryOne] :=
  c5_store_amended [] ⟨1, 0, 3⟩ [] ⟨1, "box-breathing", 0⟩ [] journalEntryOne

/-- C6: on every non-2xx chat response the resolved string is decided by the
status class alone — 401 gives the authentication message, 429 the slow-down
message, any status at or above 500 the technical-difficulties message, every
other non-ok status the generic apology — and a network failure resolves to
the fixed connection-trouble message. -/
theorem c6_chat_error_mapping (status : Nat) (data : ChatData)
    (hnot : status < 200 ∨ 300 ≤ status) :
    (status = 401 →
      getChillBuddyResponse (FetchOutcome.response status data) = authMessage) ∧
    (status = 429 →
      getChillBuddyResponse (FetchOutcome.response status data) = rateLimitMessage) ∧
    (500 ≤ status →
      getChillBuddyResponse (FetchOutcome.response status data) = serverErrorMessage) ∧
    (status ≠ 401 → status ≠ 429 → status < 500 →
      getChillBuddyResponse (FetchOutcome.response status data) = genericErrorMessage) ∧
    getChillBuddyResponse FetchOutcome.failure = connectionErrorMessage := by
  have hko : ¬ (200 ≤ status ∧ status ≤ 299) := by omega
  refine ⟨?_, ?_, ?_, ?_, rfl⟩
  · intro h
    subst h
    rfl
  · intro h
    subst h
    rfl
  · intro h500
    rw [getChillBuddyResponse, if_pos hko, if_neg (by omega), if_neg (by omega),
      if_pos h500]
  · intro h401 h429 hlt
    rw [getChillBuddyResponse, if_pos hko, if_neg h401, if_neg h429,
      if_neg (by omega)]

/-- Witness for `c6_chat_error_mapping` at status 502 with an empty body. -/
theorem c6_chat_error_mapping_witness :
    ((502 : Nat) = 401 →
      getChillBuddyResponse (FetchOutcome.response 502 ⟨none, false⟩) = authMessage) ∧
    ((502 : Nat) = 429 →
      getChillBuddyResponse (FetchOutcome.response 502 ⟨none, false⟩) = rateLimitMessage) ∧
    (500 ≤ 502 →
      getChillBuddyResponse (FetchOutcome.response 502 ⟨none, false⟩) = serverErrorMessage) ∧
    ((502 : Nat) ≠ 401 → (502 : Nat) ≠ 429 → 502 < 500 →
      getChillBuddyResponse (FetchOutcome.response 502 ⟨none, false⟩) = genericErrorMessage) ∧
    getChillBuddyResponse FetchOutcome.failure = connectionErrorMessage :=
  c6_chat_error_mapping 502 ⟨none, false⟩ (by omega)

/-- C7 counterexample: two journal entries of 1 and 2 words.  The arithmetic
mean of the word counts is 3/2, but `getAverageWordsPerEntry` returns
`Math.round(3/2) = 2`, so the derived value is not the arithmetic mean. -/
theorem c7_average_counterexample :
    getAverageWordsPerEntry [journalEntryOne, journalEntryTwo] = 2 ∧
    ((([journalEntryOne, journalEntryTwo].map
        (fun e => ((e.wordCount.getD 0 : Int) : ℚ))).sum / (2 : ℚ)) = 3 / 2) ∧
    (2 : ℚ) ≠ 3 / 2 := by
  refine ⟨?_, ?_, by norm_num⟩
  · show jsRound _ = 2
    rw [show (([journalEntryOne, journalEntryTwo].map
        (fun e => ((e.wordCount.getD 0 : Int) : ℚ))).sum
      / (([journalEntryOne, journalEntryTwo] : List JournalEntry).length : ℚ))
        = 3 / 2 by norm_num [journalEntryOne, journalEntryTwo]]
    norm_num [jsRound]
  · norm_num [journalEntryOne, journalEntryTwo]

/-- C7 (amended): both averages are 0 on an empty list; otherwise
`calculateAverageMood` is the exact arithmetic mean of the mood values and
`getAverageWordsPerEntry` is the arithmetic mean of the word counts rounded
to the nearest integer (halves up).  Neither can raise or produce a
non-number: the empty case is guarded and the functions are total. -/
theorem c7_average_amended (h : List MoodEntry) (es : List JournalEntry)
    (hh : h ≠ []) (hes : es ≠ []) :
    calculateAverageMood [] = 0 ∧
    getAverageWordsPerEntry [] = 0 ∧
    calculateAverageMood h * (h.length : ℚ) = (h.map (fun e => e.mood)).sum ∧
    getAverageWordsPerEntry es =
      jsRound ((((es.map (fun e => e.wordCount.getD 0)).sum : Int) : ℚ)
        / (es.length : ℚ)) := by
  have hlen : h.length ≠ 0 := fun hc => hh (List.length_eq_zero.mp hc)
  have heslen : es.length ≠ 0 := fun hc => hes (List.length_eq_zero.mp hc)
  refine ⟨rfl, rfl, ?_, ?_⟩
  · rw [calculateAverageMood, if_neg hlen]
    exact div_mul_cancel₀ _ (by exact_mod_cast hlen)
  · rw [getAverageWordsPerEntry, if_neg heslen]
    congr 1
    congr 1
    push_cast
    simp [List.map_map]
    rfl

/-- Witness for `c7_average_amended` on singleton stores. -/
theorem c7_average_amended_witness :
    calculateAverageMood [] = 0 ∧
    getAverageWordsPerEntry [] = 0 ∧
    calculateAverageMood [⟨1, 0, 3⟩] * (([(⟨1, 0, 3⟩ : MoodEntry)] : List MoodEntry).length : ℚ)
      = ([(⟨1, 0, 3⟩ : MoodEntry)].map (fun e => e.mood)).sum ∧
    getAverageWordsPerEntry [journalEntryOne] =
      jsRound (((([journalEntryOne].map (fun e => e.wordCount.getD 0)).sum : Int) : ℚ)
        / (([journalEntryOne] : List JournalEntry).length : ℚ)) :=
  c7_average_amended [⟨1, 0, 3⟩] [journalEntryOne]
    (List.cons_ne_nil _ _) (List.cons_ne_nil _ _)

theorem find?_decomp {α : Type} (p : α → Bool) (l : List α) (a : α)
    (h : l.find? p = some a) :
    p a = true ∧ ∃ l1 l2, l = l1 ++ a :: l2 ∧ ∀ x ∈ l1, p x = false := by
  induction l with
  | nil => simp [List.find?] at h
  | cons x xs ih =>
      by_cases hx : p x
      · rw [List.find?_cons_of_pos _ hx] at h
        obtain rfl : x = a := Option.some.inj h
        exact ⟨hx, [], xs, rfl, by simp⟩
      · rw [List.find?_cons_of_neg _ hx] at h
        obtain ⟨hpa, l1, l2, rfl, hl1⟩ := ih h
        refine ⟨hpa, x :: l1, l2, rfl, ?_⟩
        intro y hy
        rcases List.mem_cons.mp hy with rfl | hy2
        · simpa using hx
        · exact hl1 y hy2

theorem modifyFirst_append {α : Type} (p : α → Bool) (f : α → α)
    (l1 : List α) (a : α) (l2 : List α)
    (hl1 : ∀ x ∈ l1, p x = false) (ha : p a = true) :
    modifyFirst p f (l1 ++ a :: l2) = l1 ++ f a :: l2 := by
  induction l1 with
  | nil => simp [modifyFirst, ha]
  | cons x xs ih =>
      have hx : p x = false := hl1 x (List.mem_cons_self x xs)
      simp only [List.cons_append, modifyFirst, hx, Bool.false_eq_true, if_false,
        List.cons.injEq, true_and]
      exact ih (fun y hy => hl1 y (List.mem_cons_of_mem x hy))

theorem updateProgress_eq {s : DashboardState} {badgeId : String} {item : ProgressItem}
    (n : Int)
    (hfind : s.progressData.find? (fun i => i.badgeId == badgeId) = some item)
    {l1 l2 : List ProgressItem} (hdec : s.progressData = l1 ++ item :: l2)
    (hl1 : ∀ x ∈ l1, (x.badgeId == badgeId) = false) :
    updateProgress s badgeId n =
      { progressData := l1 ++ { item with current := min n item.target } :: l2,
        notifications := if item.target ≤ min n item.target
          then s.notifications ++ [badgeId] else s.notifications } := by
  have hp : (item.badgeId == badgeId) = true := (find?_decomp _ _ _ hfind).1
  rw [updateProgress, hfind]
  simp only [DashboardState.mk.injEq]
  constructor
  · rw [hdec]
    exact modifyFirst_append _ _ l1 item l2 hl1 hp
  · trivial

theorem simulateActivity_progressData {s : DashboardState} {badgeId : String}
    {item : ProgressItem} (activityType : String) (today amount : Int)
    (hfind : s.progressData.find? (fun i => i.badgeId == badgeId) = some item)
    {l1 l2 : List ProgressItem} (hdec : s.progressData = l1 ++ item :: l2)
    (hl1 : ∀ x ∈ l1, (x.badgeId == badgeId) = false) :
    (simulateActivity s badgeId activityType today amount).progressData =
      l1 ++ { item with
                current := min (item.current + amount) item.target,
                recentActivity := addRecentActivity today activityType amount
                  item.recentActivity } :: l2 := by
  have hp : (item.badgeId == badgeId) = true := (find?_decomp _ _ _ hfind).1
  have hv : min (min (item.current + amount) item.target) item.target
      = min (item.current + amount) item.target :=
    min_eq_left (min_le_right _ _)
  rw [simulateActivity, hfind]
  simp only [updateProgress_eq (min (item.current + amount) item.target) hfind hdec hl1]
  rw [hv]
  have hp2 : ((({ item with current := min (item.current + amount) item.target }
      : ProgressItem)).badgeId == badgeId) = true := hp
  rw [modifyFirst_append _ _ l1 _ l2 hl1 hp2]

/-- C2 counterexample: one badge at 0 of 2 and an empty notification log.
Two successive `updateProgress` calls that both leave the badge at its target
emit two badge-earned notifications for the same badge; the claimed
session-level suppression does not exist. -/
theorem c2_notification_counterexample :
    (updateProgress (updateProgress dashExample "a" 2) "a" 2).notifications = ["a", "a"] ∧
    List.count "a" (updateProgress (updateProgress dashExample "a" 2) "a" 2).notifications
      = 2 := by
  exact ⟨rfl, rfl⟩

/-- C2 (amended): `showNotification` keeps no record of already-notified
badges, so every `updateProgress` call that finds the badge and leaves its
new current at or above the target appends one more badge-earned
notification, regardless of how many were emitted before; a call that leaves
it below target, or finds no badge, emits none. -/
theorem c2_notification_amended (s : DashboardState) (badgeId : String) (n : Int) :
    (s.progressData.find? (fun i => i.badgeId == badgeId) = none →
      (updateProgress s badgeId n).notifications = s.notifications) ∧
    (∀ item, s.progressData.find? (fun i => i.badgeId == badgeId) = some item →
      (item.target ≤ min n item.target →
        (updateProgress s badgeId n).notifications = s.notifications ++ [badgeId]) ∧
      (min n item.target < item.target →
        (updateProgress s badgeId n).notifications = s.notifications)) := by
  constructor
  · intro hnone
    rw [updateProgress, hnone]
  · intro item hfind
    obtain ⟨hp, l1, l2, hdec, hl1⟩ := find?_decomp _ _ _ hfind
    rw [updateProgress_eq n hfind hdec hl1]
    constructor
    · intro hge
      simp only [if_pos hge]
    · intro hlt
      simp only [if_neg (not_le.mpr hlt)]

/-- Witness for `c2_notification_amended` on the concrete dashboard. -/
theorem c2_notification_amended_witness :
    (dashExample.progressData.find? (fun i => i.badgeId == "a") = none →
      (updateProgress dashExample "a" 2).notifications = dashExample.notifications) ∧
    (∀ item, dashExample.progressData.find? (fun i => i.badgeId == "a") = some item →
      (item.target ≤ min 2 item.target →
        (updateProgress dashExample "a" 2).notifications
          = dashExample.notifications ++ ["a"]) ∧
      (min 2 item.target < item.target →
        (updateProgress dashExample "a" 2).notifications = dashExample.notifications)) :=
  c2_notification_amended dashExample "a" 2

/-- C3 counterexample: `updateProgress` applies no lower clamp, so a manual
update with a negative value stores a negative `current`, and the rendered
badge fraction of that item is negative, violating the claimed lower bound. -/
theorem c3_fraction_counterexample :
    (updateProgress dashExample "a" (-1)).progressData
      = [{ dashItem with current := -1 }] ∧
    badgeFraction { dashItem with current := -1 } < 0 := by
  refine ⟨rfl, ?_⟩
  have h1 : (((-1 : Int) : ℚ) / ((2 : Int) : ℚ) * 100) = -50 := by norm_num
  rw [badgeFraction, progressPercentage]
  show min (((-1 : Int) : ℚ) / ((2 : Int) : ℚ) * 100) 100 / 100 < 0
  rw [h1, min_eq_left (by norm_num)]
  norm_num

/-- C3 (amended): for a positive target the badge fraction is
`min(current/target, 1)`, hence never exceeds 1; it is nonnegative whenever
the stored current is nonnegative (in particular for every fraction derived
from counting activity entries, where `current = min(count, target)` with a
nonnegative count, and then the fraction is `min(count,target)/target`,
clamped to exactly 1 when the target is met).  A manual negative update can
drive the stored current, and so the fraction, below 0. -/
theorem c3_fraction_amended (item : ProgressItem) (count target : Int)
    (hpos : 0 < item.target) (hcur : 0 ≤ item.current)
    (hc : 0 ≤ count) (ht : 0 < target) :
    0 ≤ badgeFraction item ∧ badgeFraction item ≤ 1 ∧
    badgeFraction item = min ((item.current : ℚ) / (item.target : ℚ)) 1 ∧
    0 ≤ rewardRatio count target ∧ rewardRatio count target ≤ 1 ∧
    (target ≤ count → rewardRatio count target = 1) := by
  have htq : (0 : ℚ) < (item.target : ℚ) := by exact_mod_cast hpos
  have hcq : (0 : ℚ) ≤ (item.current : ℚ) := by exact_mod_cast hcur
  have hq0 : (0 : ℚ) ≤ (item.current : ℚ) / (item.target : ℚ) :=
    div_nonneg hcq (le_of_lt htq)
  refine ⟨?_, ?_, ?_, ?_, ?_, ?_⟩
  · exact div_nonneg (le_min (by positivity) (by norm_num)) (by norm_num)
  · rw [badgeFraction, progressPercentage, div_le_one (by norm_num : (0:ℚ) < 100)]
    exact min_le_right _ _
  · rw [badgeFraction, progressPercentage]
    rcases le_total ((item.current : ℚ) / (item.target : ℚ) * 100) 100 with hle | hge
    · rw [min_eq_left hle, min_eq_left (by linarith),
        mul_div_assoc]
      norm_num
    · rw [min_eq_right hge, min_eq_right (by linarith)]
      norm_num
  · exact div_nonneg (by exact_mod_cast le_min hc (le_of_lt ht))
      (by exact_mod_cast le_of_lt ht)
  · rw [rewardRatio, div_le_one (by exact_mod_cast ht)]
    exact_mod_cast min_le_right count target
  · intro hmet
    rw [rewardRatio, min_eq_right hmet]
    exact div_self (by exact_mod_cast ne_of_gt ht)

/-- Witness for `c3_fraction_amended` at the concrete in-progress item and a
count of 3 toward a target of 2. -/
theorem c3_fraction_amended_witness :
    0 ≤ badgeFraction dashItem ∧ badgeFraction dashItem ≤ 1 ∧
    badgeFraction dashItem = min ((dashItem.current : ℚ) / (dashItem.target : ℚ)) 1 ∧
    0 ≤ rewardRatio 3 2 ∧ rewardRatio 3 2 ≤ 1 ∧
    ((2 : Int) ≤ 3 → rewardRatio 3 2 = 1) :=
  c3_fraction_amended dashItem 3 2 (by norm_num [dashItem]) (by norm_num [dashItem])
    (by norm_num) (by norm_num)

/-- C8 counterexample: a badge already at its target (earned, 5 of 5) is moved
back to `current = 0`, strictly below target (locked), by a single
`updateProgress` call with a lower value — `earned` is not terminal under the
dispatcher's operations. -/
theorem c8_terminal_counterexample :
    earnedItem.target ≤ earnedItem.current ∧
    (updateProgress earnedState "a" 0).progressData = [{ earnedItem with current := 0 }] ∧
    ({ earnedItem with current := 0 } : ProgressItem).current
      < ({ earnedItem with current := 0 } : ProgressItem).target := by
  refine ⟨by norm_num [earnedItem], rfl, by norm_num [earnedItem]⟩

/-- C8 (amended): earned is terminal for the activity-driven transitions —
`simulateActivity` with a nonnegative amount preserves every item's target
and never moves an item at or above its target back below it — but the
manual `updateProgress` with a value below target, and `resetProgress`, do
regress an earned badge. -/
theorem c8_terminal_amended (s : DashboardState) (badgeId activityType : String)
    (today amount : Int) (hamt : 0 ≤ amount) :
    List.Forall₂
      (fun a b => a.target = b.target ∧ (a.target ≤ a.current → b.target ≤ b.current))
      s.progressData
      (simulateActivity s badgeId activityType today amount).progressData := by
  cases hfind : s.progressData.find? (fun i => i.badgeId == badgeId) with
  | none =>
      rw [simulateActivity, hfind]
      exact List.forall₂_same.mpr (fun x _ => ⟨rfl, id⟩)
  | some item =>
      obtain ⟨hp, l1, l2, hdec, hl1⟩ := find?_decomp _ _ _ hfind
      rw [simulateActivity_progressData activityType today amount hfind hdec hl1, hdec]
      refine List.rel_append (List.forall₂_same.mpr fun x _ => ⟨rfl, id⟩) ?_
      refine List.Forall₂.cons ⟨rfl, ?_⟩ (List.forall₂_same.mpr fun x _ => ⟨rfl, id⟩)
      intro hE
      show item.target ≤ min (item.current + amount) item.target
      exact le_min (by omega) le_rfl

/-- Witness for `c8_terminal_amended`: simulating one unit of activity on the
already-earned concrete badge. -/
theorem c8_terminal_amended_witness :
    List.Forall₂
      (fun a b => a.target = b.target ∧ (a.target ≤ a.current → b.target ≤ b.current))
      earnedState.progressData
      (simulateActivity earnedState "a" "exercise" 0 1).progressData :=
  c8_terminal_amended earnedState "a" "exercise" 0 1 (by norm_num)

/-- C9: one aggregation pass returns the three stores unchanged, so running
the pass a second time on the state it leaves behind produces exactly the
same derived metrics — the aggregation is deterministic and idempotent with
respect to re-computation. -/
theorem c9_aggregate_idempotent (mh : List MoodEntry) (es : List JournalEntry)
    (pd : List ProgressItem) (today : Int) :
    (aggregate mh es pd today).2 = (mh, es, pd) ∧
    (aggregate (aggregate mh es pd today).2.1 (aggregate mh es pd today).2.2.1
      (aggregate mh es pd today).2.2.2 today).1 = (aggregate mh es pd today).1 :=
  ⟨rfl, rfl⟩

/-- C10: `updateProgress(badgeId, n)` is a no-op (including the notification
log) when no item carries the badge id; otherwise the progress list splits as
`l1 ++ item :: l2` with no match in `l1`, and the update rewrites exactly the
matched item to `current := min(n, target)` — every other item, and every
other field of the matched item, is unchanged, and the new current never
exceeds the target (there is no lower clamp).  `updateProgressFromModal`
delegates to `updateProgress`, and `simulateActivity` sets the matched item's
current to `min(current + amount, target)`, which for a nonnegative amount
and in-range current never lowers it. -/
theorem c10_updateProgress_frame (s : DashboardState) (badgeId activityType : String)
    (n today amount : Int) :
    (s.progressData.find? (fun i => i.badgeId == badgeId) = none →
      updateProgress s badgeId n = s ∧
      updateProgressFromModal s badgeId (some n) = s ∧
      simulateActivity s badgeId activityType today amount = s) ∧
    (∀ item, s.progressData.find? (fun i => i.badgeId == badgeId) = some item →
      ∃ l1 l2, s.progressData = l1 ++ item :: l2 ∧
        (∀ x ∈ l1, (x.badgeId == badgeId) = false) ∧
        (updateProgress s badgeId n).progressData =
          l1 ++ { item with current := min n item.target } :: l2 ∧
        min n item.target ≤ item.target ∧
        updateProgressFromModal s badgeId (some n) = updateProgress s badgeId n ∧
        (simulateActivity s badgeId activityType today amount).progressData =
          l1 ++ { item with
                    current := min (item.current + amount) item.target,
                    recentActivity := addRecentActivity today activityType amount
                      item.recentActivity } :: l2 ∧
        (0 ≤ amount → item.current ≤ item.target →
          item.current ≤ min (item.current + amount) item.target)) := by
  constructor
  · intro hnone
    refine ⟨?_, ?_, ?_⟩
    · rw [updateProgress, hnone]
    · rw [updateProgressFromModal, updateProgress, hnone]
    · rw [simulateActivity, hnone]
  · intro item hfind
    obtain ⟨hp, l1, l2, hdec, hl1⟩ := find?_decomp _ _ _ hfind
    refine ⟨l1, l2, hdec, hl1, ?_, min_le_right _ _, rfl, ?_, ?_⟩
    · rw [updateProgress_eq n hfind hdec hl1]
    · exact simulateActivity_progressData activityType today amount hfind hdec hl1
    · intro h0 hrange
      exact le_min (by omega) hrange

/-- Witness for `c10_updateProgress_frame` on the concrete dashboard. -/
theorem c10_updateProgress_frame_witness :
    ∃ l1 l2, dashExample.progressData = l1 ++ dashItem :: l2 ∧
      (∀ x ∈ l1, (x.badgeId == "a") = false) ∧
      (updateProgress dashExample "a" 2).progressData =
        l1 ++ { dashItem with current := min 2 dashItem.target } :: l2 ∧
      min 2 dashItem.target ≤ dashItem.target ∧
      updateProgressFromModal dashExample "a" (some 2) = updateProgress dashExample "a" 2 ∧
      (simulateActivity dashExample "a" "mood-log" 0 1).progressData =
        l1 ++ { dashItem with
                  current := min (dashItem.current + 1) dashItem.target,
                  recentActivity := addRecentActivity 0 "mood-log" 1
                    dashItem.recentActivity } :: l2 ∧
      (0 ≤ (1 : Int) → dashItem.current ≤ dashItem.target →
        dashItem.current ≤ min (dashItem.current + 1) dashItem.target) :=
  (c10_updateProgress_frame dashExample "a" "mood-log" 2 0 1).2 dashItem rfl

end ChillBuddy
